import Mathlib

/-!
Shallow embedding of turbogmailify's per-account synchronization engine
(src/main.go): the fetch → import → delete transfer pipeline, the mailbox
drain loop, the idle wait, the session manager and the per-account
supervisor loop.  External calls (IMAP commands, the Gmail import upload,
timers) are modelled by explicit response environments; each function
returns the ordered list of externally visible calls it issued together
with its Go return value.
-/

namespace Turbogmailify

/-- One raw byte of message content. -/
abbrev Byte := Nat

/-- An email fetched from an IMAP mailbox (`type message struct` in main.go):
its server-assigned UID and its raw contents. -/
structure message where
  uid : Nat
  contents : List Byte
deriving DecidableEq

/-- Outcome of a simple IMAP command wait (`Login`, `Store`, `Expunge`,
`Idle` entry, `idle.Close`, `idle.Wait`, dialling). -/
inductive CmdResp where
  | ok : CmdResp
  | err (e : String) : CmdResp
deriving DecidableEq

/-- Result of `client.Select("INBOX", nil).Wait()`: the mailbox snapshot
(here just its `NumMessages` count) or an error. -/
inductive SelectResp where
  | ok (numMessages : Nat) : SelectResp
  | err (e : String) : SelectResp
deriving DecidableEq

/-- One message as collected from a FETCH response: its UID and the raw data
of its body sections. -/
structure FetchData where
  uid : Nat
  bodySection : List (List Byte)
deriving DecidableEq

/-- Result of `fetch.Collect()` inside `fetchFirstMessage`. -/
inductive FetchResp where
  | ok (messages : List FetchData) : FetchResp
  | err (e : String) : FetchResp
deriving DecidableEq

/-- Result of the Gmail import call (`.Do()`): a transport error, or a
response carrying an HTTP status code. -/
inductive ImportResp where
  | transportErr (e : String) : ImportResp
  | resp (httpStatusCode : Nat) : ImportResp
deriving DecidableEq

/-- The parameters of the Gmail import request as built by `importToGmail`. -/
structure ImportRequest where
  userId : String
  labelIds : List String
  internalDateSource : String
  neverMarkSpam : Bool
  processForCalendar : Bool
  deleted : Bool
  media : List Byte
  contentType : String
deriving DecidableEq

/-- The externally visible calls a session issues, in program order. -/
inductive Action where
  | login : Action
  | select (mailbox : String) : Action
  | fetch (seqNum : Nat) : Action
  | gmailImport (req : ImportRequest) : Action
  | store (uid : Nat) (opAdd : Bool) (silent : Bool) (flags : List String) : Action
  | expunge : Action
  | idleCmd : Action
  | timerStart (d : Nat) : Action
  | timerStop : Action
  | idleClose : Action
  | idleWait : Action
deriving DecidableEq

/-- Embedding of `fetchFirstMessage` (main.go): fetch sequence number 1 with
an empty body section (the raw contents of the entire message); on a
collect error return it; with no collected messages return no message;
otherwise assemble the first collected message, concatenating its body
section data. -/
def fetchFirstMessage (r : FetchResp) : List Action × Except String (Option message) :=
  ([Action.fetch 1],
    match r with
    | FetchResp.err e => Except.error e
    | FetchResp.ok msgs =>
      match msgs with
      | [] => Except.ok none
      | m :: _ => Except.ok (some { uid := m.uid, contents := m.bodySection.flatten }))

/-- The Gmail import request built by `importToGmail` (main.go):
`Import("me", {LabelIds: ["INBOX", "UNREAD"]})`, `InternalDateSource("dateHeader")`,
`NeverMarkSpam(false)`, `ProcessForCalendar(true)`, `Deleted(false)`, with the
message contents as `message/rfc822` media. -/
def importRequest (m : message) : ImportRequest :=
  { userId := "me"
    labelIds := ["INBOX", "UNREAD"]
    internalDateSource := "dateHeader"
    neverMarkSpam := false
    processForCalendar := true
    deleted := false
    media := m.contents
    contentType := "message/rfc822" }

/-- Embedding of `importToGmail` (main.go): issue the import call; a
transport error is returned as-is; a response with an HTTP status code other
than 200 becomes an error; otherwise success. -/
def importToGmail (m : message) (r : ImportResp) : List Action × Except String Unit :=
  ([Action.gmailImport (importRequest m)],
    match r with
    | ImportResp.transportErr e => Except.error e
    | ImportResp.resp code =>
      if code ≠ 200 then
        Except.error ("gmail returned status code: " ++ toString code)
      else Except.ok ())

/-- The STORE action `deleteMessage` issues: add `\Deleted`, silently, on
exactly the given UID. -/
def storeFor (uid : Nat) : Action :=
  Action.store uid true true ["\\Deleted"]

/-- Embedding of `deleteMessage` (main.go): UID STORE +FLAGS (\Deleted)
silent on exactly the given UID, then EXPUNGE; an error from either command
is returned at once. -/
def deleteMessage (uid : Nat) (storeR expungeR : CmdResp) : List Action × Except String Unit :=
  match storeR with
  | CmdResp.err e => ([storeFor uid], Except.error e)
  | CmdResp.ok =>
    match expungeR with
    | CmdResp.err e => ([storeFor uid, Action.expunge], Except.error e)
    | CmdResp.ok => ([storeFor uid, Action.expunge], Except.ok ())

/-- What woke the select in `doIdle`: the mailbox-update channel, or the
deadline timer. -/
inductive WakeCause where
  | changed : WakeCause
  | timedOut : WakeCause
deriving DecidableEq

/-- Responses of the environment during one `doIdle` call. -/
structure IdleEnv where
  idleStartR : CmdResp
  wake : WakeCause
  closeR : CmdResp
  waitR : CmdResp
deriving DecidableEq

/-- Embedding of `doIdle` (main.go): enter IDLE; arm a timer of length
`deadline` and block on the select between the mailbox-update channel and
the timer (stopping the timer when a notification won); then, for either
wake cause, issue `idle.Close()` followed by `idle.Wait()`; an error from
any step is returned at once. -/
def doIdle (deadline : Nat) (env : IdleEnv) : List Action × Except String Unit :=
  match env.idleStartR with
  | CmdResp.err e => ([Action.idleCmd], Except.error e)
  | CmdResp.ok =>
    let wakeActs :=
      match env.wake with
      | WakeCause.changed => [Action.timerStart deadline, Action.timerStop]
      | WakeCause.timedOut => [Action.timerStart deadline]
    match env.closeR with
    | CmdResp.err e => (Action.idleCmd :: wakeActs ++ [Action.idleClose], Except.error e)
    | CmdResp.ok =>
      match env.waitR with
      | CmdResp.err e =>
        (Action.idleCmd :: wakeActs ++ [Action.idleClose, Action.idleWait], Except.error e)
      | CmdResp.ok =>
        (Action.idleCmd :: wakeActs ++ [Action.idleClose, Action.idleWait], Except.ok ())

/-- Responses of the environment during one iteration of the inner drain
loop of `doSession`. -/
structure DrainEnv where
  selectR : SelectResp
  fetchR : FetchResp
  importR : ImportResp
  storeR : CmdResp
  expungeR : CmdResp
deriving DecidableEq

/-- Outcome of one iteration of the inner drain loop of `doSession`:
`return err`, `break`, or fall through to the next iteration. -/
inductive StepRes where
  | err (e : String) : StepRes
  | brk : StepRes
  | cont : StepRes
deriving DecidableEq

/-- One iteration of the inner drain loop of `doSession` (main.go): select
"INBOX"; break when the snapshot's count is zero; fetch the first message
(breaking when none came back); import it to Gmail; on import success delete
it from the source; any error returns. -/
def drainStep (env : DrainEnv) : List Action × StepRes :=
  match env.selectR with
  | SelectResp.err e => ([Action.select "INBOX"], StepRes.err e)
  | SelectResp.ok numMessages =>
    if numMessages ≤ 0 then ([Action.select "INBOX"], StepRes.brk)
    else
      let fetched := fetchFirstMessage env.fetchR
      match fetched.2 with
      | Except.error e => (Action.select "INBOX" :: fetched.1, StepRes.err e)
      | Except.ok none => (Action.select "INBOX" :: fetched.1, StepRes.brk)
      | Except.ok (some msg) =>
        let imported := importToGmail msg env.importR
        match imported.2 with
        | Except.error e =>
          (Action.select "INBOX" :: fetched.1 ++ imported.1, StepRes.err e)
        | Except.ok _ =>
          let del := deleteMessage msg.uid env.storeR env.expungeR
          match del.2 with
          | Except.error e =>
            (Action.select "INBOX" :: fetched.1 ++ imported.1 ++ del.1, StepRes.err e)
          | Except.ok _ =>
            (Action.select "INBOX" :: fetched.1 ++ imported.1 ++ del.1, StepRes.cont)

/-- Result of running the inner drain loop (bounded by fuel). -/
inductive DrainRes where
  | drained : DrainRes
  | err (e : String) : DrainRes
  | fuelOut : DrainRes
deriving DecidableEq

/-- The inner drain loop of `doSession`, iterated up to `fuel` times;
`env i` supplies the server responses of iteration `i`. -/
def drainLoop : Nat → (Nat → DrainEnv) → List Action × DrainRes
  | 0, _ => ([], DrainRes.fuelOut)
  | fuel + 1, env =>
    let step := drainStep (env 0)
    match step.2 with
    | StepRes.err e => (step.1, DrainRes.err e)
    | StepRes.brk => (step.1, DrainRes.drained)
    | StepRes.cont =>
      let rest := drainLoop fuel (fun i => env (i + 1))
      (step.1 ++ rest.1, rest.2)

/-- Responses of the environment during one iteration of the outer loop of
`doSession`: a drain pass followed by an idle wait. -/
structure OuterEnv where
  drain : Nat → DrainEnv
  idle : IdleEnv

/-- What `doSession` did: returned (with `some e` a non-nil error, with
`none` a nil error), or is still running when the fuel ran out. -/
inductive SessionRes where
  | returned (e : Option String) : SessionRes
  | fuelOut : SessionRes
deriving DecidableEq

/-- One Go `time.Minute` in nanoseconds. -/
def timeMinute : Nat := 60 * 1000000000

/-- `const maxPollTime = 5 * time.Minute` (main.go), in nanoseconds. -/
def maxPollTime : Nat := 5 * timeMinute

/-- The outer loop of `doSession`: run a drain pass; on success run the idle
wait with deadline `maxPollTime`; repeat; any error is returned (non-nil). -/
def doSessionLoop : Nat → Nat → (Nat → OuterEnv) → List Action × SessionRes
  | 0, _, _ => ([], SessionRes.fuelOut)
  | outerFuel + 1, innerFuel, env =>
    let drained := drainLoop innerFuel (env 0).drain
    match drained.2 with
    | DrainRes.err e => (drained.1, SessionRes.returned (some e))
    | DrainRes.fuelOut => (drained.1, SessionRes.fuelOut)
    | DrainRes.drained =>
      let idled := doIdle maxPollTime (env 0).idle
      match idled.2 with
      | Except.error e => (drained.1 ++ idled.1, SessionRes.returned (some e))
      | Except.ok _ =>
        let rest := doSessionLoop outerFuel innerFuel (fun i => env (i + 1))
        (drained.1 ++ idled.1 ++ rest.1, rest.2)

/-- Responses of the environment over one whole `doSession` run. -/
structure SessionEnv where
  dialR : CmdResp
  loginR : CmdResp
  outer : Nat → OuterEnv

/-- Embedding of `doSession` (main.go): dial TLS, log in, then alternate the
inner drain loop with the idle wait forever; every `return` statement in the
source returns a non-nil error. -/
def doSession (outerFuel innerFuel : Nat) (env : SessionEnv) : List Action × SessionRes :=
  match env.dialR with
  | CmdResp.err e => ([], SessionRes.returned (some e))
  | CmdResp.ok =>
    match env.loginR with
    | CmdResp.err e => ([Action.login], SessionRes.returned (some e))
    | CmdResp.ok =>
      let looped := doSessionLoop outerFuel innerFuel env.outer
      (Action.login :: looped.1, looped.2)

/-- One event of a per-account supervisor goroutine. -/
inductive SupEvent where
  | runSession (result : Option String) : SupEvent
  | sleep (duration : Nat) : SupEvent
deriving DecidableEq

/-- The per-account goroutine body in `main` (main.go): run `doSession` to
completion, then unconditionally `time.Sleep(maxPollTime)`, forever;
`results i` is the error the i-th session run returned, which the loop
discards.  Fuel bounds the number of restarts modelled. -/
def accountLoop (results : Nat → Option String) : Nat → List SupEvent
  | 0 => []
  | n + 1 =>
    SupEvent.runSession (results 0) :: SupEvent.sleep maxPollTime ::
      accountLoop (fun i => results (i + 1)) n

/-- State of a Go channel of opaque notifications, together with whether the
receiving goroutine is currently blocked on a receive from it. -/
structure ChanState where
  buffer : List Unit
  receiverWaiting : Bool
deriving DecidableEq

/-- Go semantics of a send inside `select { case ch <- data: default: }` on
a channel of capacity `cap`: the send succeeds at once when a receiver is
blocked on the channel, or when buffer space is free; otherwise the
`default` branch is taken and the value is dropped.  The second component
reports whether the notification was delivered. -/
def nonBlockingSend (cap : Nat) (s : ChanState) : ChanState × Bool :=
  if s.receiverWaiting then ({ s with receiverWaiting := false }, true)
  else if s.buffer.length < cap then ({ s with buffer := s.buffer ++ [()] }, true)
  else (s, false)

/-- Capacity of the `mailboxUpdate` channel in `doSession`:
`make(chan *imapclient.UnilateralDataMailbox)` creates an unbuffered
channel. -/
def mailboxUpdateCapacity : Nat := 0

/-- The `UnilateralDataHandler.Mailbox` callback body from `doSession`: a
non-blocking send of the notification into the `mailboxUpdate` channel. -/
def handlerSend (s : ChanState) : ChanState × Bool :=
  nonBlockingSend mailboxUpdateCapacity s

/-- Modelled from the spec: the claimed hand-off is "a one-element
overwritable mailbox/atomic slot, written by the server-push callback
(non-blocking, drop-if-full)" — that is, a buffered channel of capacity
one. -/
def slotSend (s : ChanState) : ChanState × Bool :=
  nonBlockingSend 1 s

/-- The import responses `importToGmail` treats as success. -/
def importOk : ImportResp → Bool
  | ImportResp.transportErr _ => false
  | ImportResp.resp code => code == 200

lemma importToGmail_ok_iff (m : message) (r : ImportResp) :
    (importToGmail m r).2 = Except.ok () ↔ importOk r = true := by
  cases r with
  | transportErr e => simp [importToGmail, importOk]
  | resp code =>
    by_cases h : code = 200 <;> simp [importToGmail, importOk, h]

lemma importToGmail_fail (m : message) (r : ImportResp) (h : importOk r = false) :
    ∃ e, (importToGmail m r).2 = Except.error e := by
  cases r with
  | transportErr e => exact ⟨e, rfl⟩
  | resp code =>
    refine ⟨"gmail returned status code: " ++ toString code, ?_⟩
    have hc : code ≠ 200 := by simpa [importOk] using h
    simp [importToGmail, hc]

lemma drainLoop_err_succ (fuel : Nat) (env : Nat → DrainEnv) (e : String)
    (h : (drainStep (env 0)).2 = StepRes.err e) :
    drainLoop (fuel + 1) env = ((drainStep (env 0)).1, DrainRes.err e) := by
  simp [drainLoop, h]

lemma drainLoop_brk_succ (fuel : Nat) (env : Nat → DrainEnv)
    (h : (drainStep (env 0)).2 = StepRes.brk) :
    drainLoop (fuel + 1) env = ((drainStep (env 0)).1, DrainRes.drained) := by
  simp [drainLoop, h]

lemma drainLoop_cont_succ (fuel : Nat) (env : Nat → DrainEnv)
    (h : (drainStep (env 0)).2 = StepRes.cont) :
    drainLoop (fuel + 1) env =
      ((drainStep (env 0)).1 ++ (drainLoop fuel (fun i => env (i + 1))).1,
       (drainLoop fuel (fun i => env (i + 1))).2) := by
  simp [drainLoop, h]

/-- Peeling the first `k` continuing iterations off the drain loop. -/
lemma drainLoop_split (k : Nat) :
    ∀ (fuel : Nat) (env : Nat → DrainEnv), k ≤ fuel →
    (∀ j, j < k → (drainStep (env j)).2 = StepRes.cont) →
    drainLoop fuel env =
      (((List.range k).map (fun j => (drainStep (env j)).1)).flatten
          ++ (drainLoop (fuel - k) (fun i => env (i + k))).1,
       (drainLoop (fuel - k) (fun i => env (i + k))).2) := by
  induction k with
  | zero =>
    intro fuel env _ _
    simp
  | succ k ih =>
    intro fuel env hk hcont
    obtain ⟨f, rfl⟩ : ∃ f, fuel = f + 1 := ⟨fuel - 1, by omega⟩
    rw [drainLoop_cont_succ f env (hcont 0 (Nat.succ_pos k))]
    have ih2 := ih f (fun i => env (i + 1)) (by omega)
      (fun j hj => hcont (j + 1) (by omega))
    rw [ih2]
    have henv : (fun i => env (i + k + 1)) = (fun i => env (i + (k + 1))) := by
      funext i
      rfl
    have hfuel : f - k = f + 1 - (k + 1) := by omega
    have hmap : ((fun j => (drainStep (env j)).1) ∘ Nat.succ) =
        (fun j => (drainStep (env (j + 1))).1) := by
      funext j
      rfl
    rw [List.range_succ_eq_map]
    simp only [List.map_cons, List.map_map, List.flatten_cons]
    rw [hmap]
    rw [henv]
    rw [hfuel]
    rw [← List.append_assoc]

lemma drainStep_msg (env : DrainEnv) (n : Nat) (fd : FetchData) (rest : List FetchData)
    (hsel : env.selectR = SelectResp.ok n) (hn : 0 < n)
    (hfetch : env.fetchR = FetchResp.ok (fd :: rest)) :
    drainStep env =
      (let M : message := ⟨fd.uid, fd.bodySection.flatten⟩
       match (importToGmail M env.importR).2 with
       | Except.error e =>
         ([Action.select "INBOX", Action.fetch 1, Action.gmailImport (importRequest M)],
          StepRes.err e)
       | Except.ok _ =>
         match (deleteMessage fd.uid env.storeR env.expungeR).2 with
         | Except.error e =>
           ([Action.select "INBOX", Action.fetch 1, Action.gmailImport (importRequest M)]
              ++ (deleteMessage fd.uid env.storeR env.expungeR).1, StepRes.err e)
         | Except.ok _ =>
           ([Action.select "INBOX", Action.fetch 1, Action.gmailImport (importRequest M)]
              ++ (deleteMessage fd.uid env.storeR env.expungeR).1, StepRes.cont)) := by
  have hn0 : ¬ n ≤ 0 := by omega
  cases hr : env.importR with
  | transportErr e =>
    simp [drainStep, hsel, hfetch, fetchFirstMessage, hn0, importToGmail, hr]
  | resp code =>
    by_cases hc : code = 200
    · subst hc
      cases hs : env.storeR with
      | err e =>
        simp [drainStep, hsel, hfetch, fetchFirstMessage, hn0, importToGmail, hr,
          deleteMessage, hs]
      | ok =>
        cases he : env.expungeR with
        | err e =>
          simp [drainStep, hsel, hfetch, fetchFirstMessage, hn0, importToGmail, hr,
            deleteMessage, hs, he]
        | ok =>
          simp [drainStep, hsel, hfetch, fetchFirstMessage, hn0, importToGmail, hr,
            deleteMessage, hs, he]
    · simp [drainStep, hsel, hfetch, fetchFirstMessage, hn0, importToGmail, hr, hc]

lemma doSessionLoop_drain_err (outerFuel innerFuel : Nat) (env : Nat → OuterEnv) (e : String)
    (h : (drainLoop innerFuel (env 0).drain).2 = DrainRes.err e) :
    doSessionLoop (outerFuel + 1) innerFuel env =
      ((drainLoop innerFuel (env 0).drain).1, SessionRes.returned (some e)) := by
  simp [doSessionLoop, h]

lemma doSessionLoop_idle_err (outerFuel innerFuel : Nat) (env : Nat → OuterEnv) (e : String)
    (hd : (drainLoop innerFuel (env 0).drain).2 = DrainRes.drained)
    (hi : (doIdle maxPollTime (env 0).idle).2 = Except.error e) :
    doSessionLoop (outerFuel + 1) innerFuel env =
      ((drainLoop innerFuel (env 0).drain).1 ++ (doIdle maxPollTime (env 0).idle).1,
       SessionRes.returned (some e)) := by
  simp [doSessionLoop, hd, hi]

lemma doSessionLoop_idle_ok (outerFuel innerFuel : Nat) (env : Nat → OuterEnv)
    (hd : (drainLoop innerFuel (env 0).drain).2 = DrainRes.drained)
    (hi : (doIdle maxPollTime (env 0).idle).2 = Except.ok ()) :
    doSessionLoop (outerFuel + 1) innerFuel env =
      ((drainLoop innerFuel (env 0).drain).1 ++ (doIdle maxPollTime (env 0).idle).1
          ++ (doSessionLoop outerFuel innerFuel (fun i => env (i + 1))).1,
       (doSessionLoop outerFuel innerFuel (fun i => env (i + 1))).2) := by
  simp [doSessionLoop, hd, hi]

lemma doSessionLoop_never_nil (outerFuel innerFuel : Nat) (env : Nat → OuterEnv) :
    (doSessionLoop outerFuel innerFuel env).2 ≠ SessionRes.returned none := by
  induction outerFuel generalizing env with
  | zero => simp [doSessionLoop]
  | succ o ih =>
    cases hd : (drainLoop innerFuel (env 0).drain).2 with
    | err e => simp [doSessionLoop_drain_err o innerFuel env e hd]
    | fuelOut => simp [doSessionLoop, hd]
    | drained =>
      cases hi : (doIdle maxPollTime (env 0).idle).2 with
      | error e => simp [doSessionLoop_idle_err o innerFuel env e hd hi]
      | ok u =>
        rw [doSessionLoop_idle_ok o innerFuel env hd hi]
        exact ih (fun i => env (i + 1))

/-- The idle wait issues no Gmail import call. -/
lemma doIdle_no_import (deadline : Nat) (env : IdleEnv) (req : ImportRequest) :
    Action.gmailImport req ∉ (doIdle deadline env).1 := by
  cases hs : env.idleStartR with
  | err e => simp [doIdle, hs]
  | ok =>
    cases hw : env.wake with
    | changed =>
      cases hc : env.closeR with
      | err e => simp [doIdle, hs, hw, hc]
      | ok =>
        cases ht : env.waitR with
        | err e => simp [doIdle, hs, hw, hc, ht]
        | ok => simp [doIdle, hs, hw, hc, ht]
    | timedOut =>
      cases hc : env.closeR with
      | err e => simp [doIdle, hs, hw, hc]
      | ok =>
        cases ht : env.waitR with
        | err e => simp [doIdle, hs, hw, hc, ht]
        | ok => simp [doIdle, hs, hw, hc, ht]

/-- Every Gmail import call a drain iteration issues was built by
`importRequest` from some message. -/
lemma drainStep_import_shape (env : DrainEnv) (req : ImportRequest)
    (h : Action.gmailImport req ∈ (drainStep env).1) :
    ∃ m, req = importRequest m := by
  cases hsel : env.selectR with
  | err e => simp [drainStep, hsel] at h
  | ok n =>
    by_cases hn : n ≤ 0
    · simp [drainStep, hsel, hn] at h
    · cases hf : env.fetchR with
      | err e => simp [drainStep, hsel, hn, fetchFirstMessage, hf] at h
      | ok msgs =>
        cases msgs with
        | nil => simp [drainStep, hsel, hn, fetchFirstMessage, hf] at h
        | cons fd rest =>
          rw [drainStep_msg env n fd rest hsel (by omega) hf] at h
          refine ⟨⟨fd.uid, fd.bodySection.flatten⟩, ?_⟩
          cases hi : (importToGmail ⟨fd.uid, fd.bodySection.flatten⟩ env.importR).2 with
          | error e =>
            simp [hi] at h
            exact h
          | ok u =>
            cases hs : env.storeR with
            | err e2 =>
              simp [hi, hs, deleteMessage, storeFor] at h
              exact h
            | ok =>
              cases he : env.expungeR with
              | err e2 =>
                simp [hi, hs, he, deleteMessage, storeFor] at h
                exact h
              | ok =>
                simp [hi, hs, he, deleteMessage, storeFor] at h
                exact h

/-- Every action of the drain loop's trace belongs to some iteration. -/
lemma drainLoop_act (fuel : Nat) :
    ∀ (env : Nat → DrainEnv) (a : Action), a ∈ (drainLoop fuel env).1 →
    ∃ j, a ∈ (drainStep (env j)).1 := by
  induction fuel with
  | zero => intro env a ha; simp [drainLoop] at ha
  | succ f ih =>
    intro env a ha
    cases hs : (drainStep (env 0)).2 with
    | err e =>
      rw [drainLoop_err_succ f env e hs] at ha
      exact ⟨0, ha⟩
    | brk =>
      rw [drainLoop_brk_succ f env hs] at ha
      exact ⟨0, ha⟩
    | cont =>
      rw [drainLoop_cont_succ f env hs] at ha
      rcases List.mem_append.mp ha with h | h
      · exact ⟨0, h⟩
      · obtain ⟨j, hj⟩ := ih (fun i => env (i + 1)) a h
        exact ⟨j + 1, hj⟩

/-- Every Gmail import call in a session trace was built by `importRequest`. -/
lemma doSessionLoop_import_shape (outerFuel : Nat) :
    ∀ (innerFuel : Nat) (env : Nat → OuterEnv) (req : ImportRequest),
    Action.gmailImport req ∈ (doSessionLoop outerFuel innerFuel env).1 →
    ∃ m, req = importRequest m := by
  induction outerFuel with
  | zero => intro iF env req h; simp [doSessionLoop] at h
  | succ o ih =>
    intro iF env req h
    cases hd : (drainLoop iF (env 0).drain).2 with
    | err e =>
      rw [doSessionLoop_drain_err o iF env e hd] at h
      obtain ⟨j, hj⟩ := drainLoop_act iF ((env 0).drain) _ h
      exact drainStep_import_shape _ req hj
    | fuelOut =>
      have hset : (doSessionLoop (o + 1) iF env).1 = (drainLoop iF (env 0).drain).1 := by
        simp [doSessionLoop, hd]
      rw [hset] at h
      obtain ⟨j, hj⟩ := drainLoop_act iF ((env 0).drain) _ h
      exact drainStep_import_shape _ req hj
    | drained =>
      cases hi : (doIdle maxPollTime (env 0).idle).2 with
      | error e =>
        rw [doSessionLoop_idle_err o iF env e hd hi] at h
        rcases List.mem_append.mp h with h2 | h2
        · obtain ⟨j, hj⟩ := drainLoop_act iF ((env 0).drain) _ h2
          exact drainStep_import_shape _ req hj
        · exact absurd h2 (doIdle_no_import maxPollTime (env 0).idle req)
      | ok u =>
        rw [doSessionLoop_idle_ok o iF env hd hi] at h
        rcases List.mem_append.mp h with h2 | h2
        · rcases List.mem_append.mp h2 with h3 | h3
          · obtain ⟨j, hj⟩ := drainLoop_act iF ((env 0).drain) _ h3
            exact drainStep_import_shape _ req hj
          · exact absurd h3 (doIdle_no_import maxPollTime (env 0).idle req)
        · exact ih iF (fun i => env (i + 1)) req h2

/-- Every action of a drain iteration is one of: the INBOX select, the
position-1 fetch, a Gmail import built by `importRequest`, the silent
add-\Deleted store, or the expunge. -/
lemma drainStep_mem (env : DrainEnv) (a : Action) (ha : a ∈ (drainStep env).1) :
    a = Action.select "INBOX" ∨ a = Action.fetch 1
    ∨ (∃ m, a = Action.gmailImport (importRequest m))
    ∨ (∃ u, a = storeFor u) ∨ a = Action.expunge := by
  cases hsel : env.selectR with
  | err e =>
    simp [drainStep, hsel] at ha
    exact Or.inl ha
  | ok n =>
    by_cases hn : n ≤ 0
    · simp [drainStep, hsel, hn] at ha
      exact Or.inl ha
    · cases hf : env.fetchR with
      | err e =>
        simp [drainStep, hsel, hn, fetchFirstMessage, hf] at ha
        rcases ha with ha | ha
        · exact Or.inl ha
        · exact Or.inr (Or.inl ha)
      | ok msgs =>
        cases msgs with
        | nil =>
          simp [drainStep, hsel, hn, fetchFirstMessage, hf] at ha
          rcases ha with ha | ha
          · exact Or.inl ha
          · exact Or.inr (Or.inl ha)
        | cons fd rest =>
          rw [drainStep_msg env n fd rest hsel (by omega) hf] at ha
          cases hi : (importToGmail ⟨fd.uid, fd.bodySection.flatten⟩ env.importR).2 with
          | error e =>
            simp [hi] at ha
            rcases ha with ha | ha | ha
            · exact Or.inl ha
            · exact Or.inr (Or.inl ha)
            · exact Or.inr (Or.inr (Or.inl ⟨_, ha⟩))
          | ok u =>
            cases hs : env.storeR with
            | err e2 =>
              simp [hi, hs, deleteMessage] at ha
              rcases ha with ha | ha | ha | ha
              · exact Or.inl ha
              · exact Or.inr (Or.inl ha)
              · exact Or.inr (Or.inr (Or.inl ⟨_, ha⟩))
              · exact Or.inr (Or.inr (Or.inr (Or.inl ⟨_, ha⟩)))
            | ok =>
              cases he : env.expungeR with
              | err e2 =>
                simp [hi, hs, he, deleteMessage] at ha
                rcases ha with ha | ha | ha | ha | ha
                · exact Or.inl ha
                · exact Or.inr (Or.inl ha)
                · exact Or.inr (Or.inr (Or.inl ⟨_, ha⟩))
                · exact Or.inr (Or.inr (Or.inr (Or.inl ⟨_, ha⟩)))
                · exact Or.inr (Or.inr (Or.inr (Or.inr ha)))
              | ok =>
                simp [hi, hs, he, deleteMessage] at ha
                rcases ha with ha | ha | ha | ha | ha
                · exact Or.inl ha
                · exact Or.inr (Or.inl ha)
                · exact Or.inr (Or.inr (Or.inl ⟨_, ha⟩))
                · exact Or.inr (Or.inr (Or.inr (Or.inl ⟨_, ha⟩)))
                · exact Or.inr (Or.inr (Or.inr (Or.inr ha)))

/-- A drain iteration's trace always begins with the INBOX select. -/
lemma drainStep_head (env : DrainEnv) :
    (drainStep env).1.head? = some (Action.select "INBOX") := by
  cases hsel : env.selectR with
  | err e => simp [drainStep, hsel]
  | ok n =>
    by_cases hn : n ≤ 0
    · simp [drainStep, hsel, hn]
    · cases hf : env.fetchR with
      | err e => simp [drainStep, hsel, hn, fetchFirstMessage, hf]
      | ok msgs =>
        cases msgs with
        | nil => simp [drainStep, hsel, hn, fetchFirstMessage, hf]
        | cons fd rest =>
          rw [drainStep_msg env n fd rest hsel (by omega) hf]
          cases hi : (importToGmail ⟨fd.uid, fd.bodySection.flatten⟩ env.importR).2 with
          | error e => simp [hi]
          | ok u =>
            cases hdel : (deleteMessage fd.uid env.storeR env.expungeR).2 with
            | error e => simp [hi, hdel]
            | ok v => simp [hi, hdel]

/-- Every action of the idle wait is one of its five idle-protocol steps. -/
lemma doIdle_mem (deadline : Nat) (env : IdleEnv) (a : Action)
    (ha : a ∈ (doIdle deadline env).1) :
    a = Action.idleCmd ∨ a = Action.timerStart deadline ∨ a = Action.timerStop
    ∨ a = Action.idleClose ∨ a = Action.idleWait := by
  cases hs : env.idleStartR <;> cases hw : env.wake <;>
    cases hc : env.closeR <;> cases ht : env.waitR <;>
    simp [doIdle, hs, hw, hc, ht] at ha <;> tauto

/-- The idle wait's trace always begins with the IDLE command. -/
lemma doIdle_idleCmd_mem (deadline : Nat) (env : IdleEnv) :
    Action.idleCmd ∈ (doIdle deadline env).1 := by
  cases hs : env.idleStartR <;> cases hw : env.wake <;>
    cases hc : env.closeR <;> cases ht : env.waitR <;>
    simp [doIdle, hs, hw, hc, ht]

/-- Every action of the outer session loop belongs to a drain pass or to an
idle wait with deadline `maxPollTime`. -/
lemma doSessionLoop_mem (outerFuel : Nat) :
    ∀ (innerFuel : Nat) (env : Nat → OuterEnv) (a : Action),
    a ∈ (doSessionLoop outerFuel innerFuel env).1 →
    (∃ j, a ∈ (drainLoop innerFuel (env j).drain).1)
    ∨ (∃ j, a ∈ (doIdle maxPollTime (env j).idle).1) := by
  induction outerFuel with
  | zero => intro iF env a h; simp [doSessionLoop] at h
  | succ o ih =>
    intro iF env a h
    cases hd : (drainLoop iF (env 0).drain).2 with
    | err e =>
      rw [doSessionLoop_drain_err o iF env e hd] at h
      exact Or.inl ⟨0, h⟩
    | fuelOut =>
      have hset : (doSessionLoop (o + 1) iF env).1 = (drainLoop iF (env 0).drain).1 := by
        simp [doSessionLoop, hd]
      rw [hset] at h
      exact Or.inl ⟨0, h⟩
    | drained =>
      cases hi : (doIdle maxPollTime (env 0).idle).2 with
      | error e =>
        rw [doSessionLoop_idle_err o iF env e hd hi] at h
        rcases List.mem_append.mp h with h2 | h2
        · exact Or.inl ⟨0, h2⟩
        · exact Or.inr ⟨0, h2⟩
      | ok u =>
        rw [doSessionLoop_idle_ok o iF env hd hi] at h
        rcases List.mem_append.mp h with h2 | h2
        · rcases List.mem_append.mp h2 with h3 | h3
          · exact Or.inl ⟨0, h3⟩
          · exact Or.inr ⟨0, h3⟩
        · rcases ih iF (fun i => env (i + 1)) a h2 with ⟨j, hj⟩ | ⟨j, hj⟩
          · exact Or.inl ⟨j + 1, hj⟩
          · exact Or.inr ⟨j + 1, hj⟩

/-- Claim C10: `doSession` has no successful return path — for every fuel
bound and environment, if it returns at all the returned error is non-nil,
so the supervisor's cooldown sleep always follows a failed session. -/
theorem C10_session_never_returns_nil (outerFuel innerFuel : Nat) (env : SessionEnv) :
    (doSession outerFuel innerFuel env).2 ≠ SessionRes.returned none := by
  cases hd : env.dialR with
  | err e => simp [doSession, hd]
  | ok =>
    cases hl : env.loginR with
    | err e => simp [doSession, hd, hl]
    | ok =>
      simpa [doSession, hd, hl] using
        doSessionLoop_never_nil outerFuel innerFuel env.outer

/-- Claim C2: `importToGmail` fails on a transport error and on every
response whose HTTP status code is not 200 (success happens exactly for
status 200 — a non-200 status is never treated as success), and in a drain
iteration an import failure yields the iteration's error with no store or
expunge issued for the message. -/
theorem C2_import_failure_policy (m : message) :
    (∀ e, (importToGmail m (ImportResp.transportErr e)).2 = Except.error e)
    ∧ (∀ code, code ≠ 200 →
        (importToGmail m (ImportResp.resp code)).2 =
          Except.error ("gmail returned status code: " ++ toString code))
    ∧ (∀ r, (importToGmail m r).2 = Except.ok () ↔ r = ImportResp.resp 200)
    ∧ (∀ (env : DrainEnv) (n : Nat) (fd : FetchData) (rest : List FetchData) (e : String),
        env.selectR = SelectResp.ok n → 0 < n →
        env.fetchR = FetchResp.ok (fd :: rest) →
        (importToGmail ⟨fd.uid, fd.bodySection.flatten⟩ env.importR).2 = Except.error e →
        (drainStep env).2 = StepRes.err e
        ∧ storeFor fd.uid ∉ (drainStep env).1
        ∧ Action.expunge ∉ (drainStep env).1) := by
  refine ⟨fun e => rfl, ?_, ?_, ?_⟩
  · intro code hc
    simp [importToGmail, hc]
  · intro r
    cases r with
    | transportErr e => simp [importToGmail]
    | resp code =>
      by_cases hc : code = 200 <;> simp [importToGmail, hc]
  · intro env n fd rest e hsel hn hfetch himp
    rw [drainStep_msg env n fd rest hsel hn hfetch]
    simp [himp, storeFor]

/-- Claim C9: `deleteMessage` always issues the silent add-\Deleted store on
exactly the given UID first; when the store fails the expunge is never
issued and the store's error is returned; an expunge is only ever issued
after a successful store; and inside a drain iteration a failing delete
becomes the iteration's error. -/
theorem C9_store_precedes_expunge (uid : Nat) (sR eR : CmdResp) :
    ((deleteMessage uid sR eR).1.head? = some (storeFor uid))
    ∧ (∀ e, sR = CmdResp.err e →
        (deleteMessage uid sR eR).1 = [storeFor uid]
        ∧ (deleteMessage uid sR eR).2 = Except.error e)
    ∧ (Action.expunge ∈ (deleteMessage uid sR eR).1 → sR = CmdResp.ok)
    ∧ (∀ (env : DrainEnv) (n : Nat) (fd : FetchData) (rest : List FetchData) (e : String),
        env.selectR = SelectResp.ok n → 0 < n →
        env.fetchR = FetchResp.ok (fd :: rest) →
        env.storeR = sR → env.expungeR = eR →
        (importToGmail ⟨fd.uid, fd.bodySection.flatten⟩ env.importR).2 = Except.ok () →
        (deleteMessage fd.uid sR eR).2 = Except.error e →
        (drainStep env).2 = StepRes.err e) := by
  refine ⟨?_, ?_, ?_, ?_⟩
  · cases sR with
    | err e => rfl
    | ok => cases eR with
      | err e => rfl
      | ok => rfl
  · intro e he
    subst he
    exact ⟨rfl, rfl⟩
  · intro hmem
    cases sR with
    | err e => simp [deleteMessage, storeFor] at hmem
    | ok => rfl
  · intro env n fd rest e hsel hn hfetch hsr her himp hdel
    rw [drainStep_msg env n fd rest hsel hn hfetch]
    rw [hsr, her]
    simp [himp, hdel]

/-- Claim C8 counterexample: the `mailboxUpdate` channel is unbuffered
(capacity 0), not a one-element slot — when no receiver is waiting, the
very first notification is dropped and nothing is ever held pending,
whereas a one-element slot would retain it. -/
theorem C8_counterexample :
    (handlerSend { buffer := [], receiverWaiting := false }).2 = false
    ∧ (handlerSend { buffer := [], receiverWaiting := false }).1.buffer = []
    ∧ (slotSend { buffer := [], receiverWaiting := false }).2 = true
    ∧ (slotSend { buffer := [], receiverWaiting := false }).1.buffer = [()]
    ∧ mailboxUpdateCapacity ≠ 1 := by
  refine ⟨rfl, rfl, rfl, rfl, ?_⟩
  simp [mailboxUpdateCapacity]

/-- Claim C8 as amended: per session, change notifications go through an
unbuffered (zero-capacity) channel written by a non-blocking send — a
notification is handed off exactly when the idle-wait controller is
concurrently blocked receiving, any other notification is dropped without
blocking the server-push callback, and no notification is ever held
pending in a buffer. -/
theorem C8_rendezvous_handoff (s : ChanState) :
    ((handlerSend s).2 = true ↔ s.receiverWaiting = true)
    ∧ (handlerSend s).1.buffer = s.buffer
    ∧ ((handlerSend s).2 = false → (handlerSend s).1 = s)
    ∧ ((handlerSend s).2 = true → (handlerSend s).1.receiverWaiting = false) := by
  cases hw : s.receiverWaiting with
  | false => simp [handlerSend, nonBlockingSend, mailboxUpdateCapacity, hw]
  | true => simp [handlerSend, nonBlockingSend, mailboxUpdateCapacity, hw]

/-- Claim C3: every drain-loop iteration first selects the mailbox by the
name "INBOX"; a zero message count makes the iteration break out with
nothing further issued (the loop returns drained); a positive count makes
it fetch sequence position 1 next — and every fetch the loop ever issues is
for position 1, re-resolved each iteration — handing any fetched message to
the import pipeline. -/
theorem C3_drain_iteration_shape :
    (∀ env : DrainEnv, (drainStep env).1.head? = some (Action.select "INBOX"))
    ∧ (∀ (env : DrainEnv) (n : Nat), env.selectR = SelectResp.ok n → n = 0 →
        drainStep env = ([Action.select "INBOX"], StepRes.brk))
    ∧ (∀ (fuel : Nat) (env : Nat → DrainEnv),
        0 < fuel → (env 0).selectR = SelectResp.ok 0 →
        drainLoop fuel env = ([Action.select "INBOX"], DrainRes.drained))
    ∧ (∀ (env : DrainEnv) (n : Nat), env.selectR = SelectResp.ok n → 0 < n →
        (drainStep env).1.take 2 = [Action.select "INBOX", Action.fetch 1])
    ∧ (∀ (env : DrainEnv) (n : Nat) (fd : FetchData) (rest : List FetchData),
        env.selectR = SelectResp.ok n → 0 < n →
        env.fetchR = FetchResp.ok (fd :: rest) →
        Action.gmailImport (importRequest ⟨fd.uid, fd.bodySection.flatten⟩)
          ∈ (drainStep env).1)
    ∧ (∀ (fuel : Nat) (env : Nat → DrainEnv) (s : Nat),
        Action.fetch s ∈ (drainLoop fuel env).1 → s = 1) := by
  have hbrk : ∀ (env : DrainEnv) (n : Nat), env.selectR = SelectResp.ok n → n = 0 →
      drainStep env = ([Action.select "INBOX"], StepRes.brk) := by
    intro env n hsel hn
    subst hn
    simp [drainStep, hsel]
  refine ⟨drainStep_head, hbrk, ?_, ?_, ?_, ?_⟩
  · intro fuel env hf hsel
    obtain ⟨m, rfl⟩ : ∃ m, fuel = m + 1 := ⟨fuel - 1, by omega⟩
    have hstep := hbrk (env 0) 0 hsel rfl
    rw [drainLoop_brk_succ m env (by rw [hstep])]
    rw [hstep]
  · intro env n hsel hn
    have hn0 : ¬ n ≤ 0 := by omega
    cases hf : env.fetchR with
    | err e => simp [drainStep, hsel, hn0, fetchFirstMessage, hf]
    | ok msgs =>
      cases msgs with
      | nil => simp [drainStep, hsel, hn0, fetchFirstMessage, hf]
      | cons fd rest =>
        rw [drainStep_msg env n fd rest hsel hn hf]
        cases hi : (importToGmail ⟨fd.uid, fd.bodySection.flatten⟩ env.importR).2 with
        | error e => simp [hi]
        | ok u =>
          cases hdel : (deleteMessage fd.uid env.storeR env.expungeR).2 with
          | error e => simp [hi, hdel]
          | ok v => simp [hi, hdel]
  · intro env n fd rest hsel hn hf
    rw [drainStep_msg env n fd rest hsel hn hf]
    cases hi : (importToGmail ⟨fd.uid, fd.bodySection.flatten⟩ env.importR).2 with
    | error e => simp [hi]
    | ok u =>
      cases hdel : (deleteMessage fd.uid env.storeR env.expungeR).2 with
      | error e => simp [hi, hdel]
      | ok v => simp [hi, hdel]
  · intro fuel env s hmem
    obtain ⟨j, hj⟩ := drainLoop_act fuel env _ hmem
    rcases drainStep_mem (env j) _ hj with h | h | ⟨m, h⟩ | ⟨u, h⟩ | h
    · cases h
    · exact (Action.fetch.inj h)
    · cases h
    · cases storeFor u with
      | _ => simp [storeFor] at h
    · cases h

/-- Claim C5: when the fetch of sequence position 1 yields no message even
though the preceding select reported a positive count, the drain iteration
breaks out, the drain loop returns drained (not an error), and the session
proceeds to the idle wait. -/
theorem C5_empty_fetch_is_drained
    (fuel k n : Nat) (env : Nat → DrainEnv)
    (hk : k < fuel)
    (hcont : ∀ j, j < k → (drainStep (env j)).2 = StepRes.cont)
    (hsel : (env k).selectR = SelectResp.ok n) (hn : 0 < n)
    (hfetch : (env k).fetchR = FetchResp.ok []) :
    drainStep (env k) = ([Action.select "INBOX", Action.fetch 1], StepRes.brk)
    ∧ (drainLoop fuel env).2 = DrainRes.drained
    ∧ (∀ (oe : Nat → OuterEnv) (outerFuel : Nat), (oe 0).drain = env →
        Action.idleCmd ∈ (doSessionLoop (outerFuel + 1) fuel oe).1) := by
  have hn0 : ¬ n ≤ 0 := by omega
  have hstep : drainStep (env k) = ([Action.select "INBOX", Action.fetch 1], StepRes.brk) :=
    by simp [drainStep, hsel, hn0, fetchFirstMessage, hfetch]
  have hloop : (drainLoop fuel env).2 = DrainRes.drained := by
    rw [drainLoop_split k fuel env (Nat.le_of_lt hk) hcont]
    obtain ⟨m, hm⟩ : ∃ m, fuel - k = m + 1 := ⟨fuel - k - 1, by omega⟩
    rw [hm]
    have h0 : (fun i => env (i + k)) 0 = env k := by
      simp
    rw [drainLoop_brk_succ m (fun i => env (i + k)) (by rw [h0, hstep])]
  refine ⟨hstep, hloop, ?_⟩
  intro oe outerFuel hdrain
  have hd : (drainLoop fuel (oe 0).drain).2 = DrainRes.drained := by
    rw [hdrain]
    exact hloop
  cases hi : (doIdle maxPollTime (oe 0).idle).2 with
  | error e =>
    rw [doSessionLoop_idle_err outerFuel fuel oe e hd hi]
    exact List.mem_append.mpr (Or.inr (doIdle_idleCmd_mem maxPollTime (oe 0).idle))
  | ok u =>
    rw [doSessionLoop_idle_ok outerFuel fuel oe hd hi]
    exact List.mem_append.mpr
      (Or.inl (List.mem_append.mpr (Or.inr (doIdle_idleCmd_mem maxPollTime (oe 0).idle))))

/-- Claim C4: the idle wait arms its deadline timer and, on either wake
cause (change notification or timer expiry), issues the done signal
(`idle.Close`) and then waits for server acknowledgment (`idle.Wait`), in
that order, before control returns to the drain loop; entering or exiting
idle mode failing yields the session error, and the call succeeds exactly
when entry, close and wait all succeed. -/
theorem C4_idle_cleanup (deadline : Nat) (env : IdleEnv) :
    ((doIdle deadline env).1.head? = some Action.idleCmd)
    ∧ (env.idleStartR = CmdResp.ok → env.closeR = CmdResp.ok →
        ∃ wakeActs,
          (env.wake = WakeCause.changed →
            wakeActs = [Action.timerStart deadline, Action.timerStop])
          ∧ (env.wake = WakeCause.timedOut → wakeActs = [Action.timerStart deadline])
          ∧ (doIdle deadline env).1 =
              Action.idleCmd :: wakeActs ++ [Action.idleClose, Action.idleWait])
    ∧ (env.idleStartR = CmdResp.ok → Action.idleClose ∈ (doIdle deadline env).1)
    ∧ (env.idleStartR = CmdResp.ok → env.closeR = CmdResp.ok →
        Action.idleWait ∈ (doIdle deadline env).1)
    ∧ ((doIdle deadline env).2 = Except.ok () ↔
        env.idleStartR = CmdResp.ok ∧ env.closeR = CmdResp.ok ∧ env.waitR = CmdResp.ok)
    ∧ (∀ e, env.idleStartR = CmdResp.err e →
        doIdle deadline env = ([Action.idleCmd], Except.error e))
    ∧ (∀ e, env.idleStartR = CmdResp.ok → env.closeR = CmdResp.err e →
        (doIdle deadline env).2 = Except.error e)
    ∧ (∀ e, env.idleStartR = CmdResp.ok → env.closeR = CmdResp.ok →
        env.waitR = CmdResp.err e → (doIdle deadline env).2 = Except.error e)
    ∧ (∀ (outerFuel innerFuel : Nat) (oe : Nat → OuterEnv),
        (drainLoop innerFuel (oe 0).drain).2 = DrainRes.drained →
        (doIdle maxPollTime (oe 0).idle).2 = Except.ok () →
        (doSessionLoop (outerFuel + 1) innerFuel oe).1 =
          (drainLoop innerFuel (oe 0).drain).1 ++ (doIdle maxPollTime (oe 0).idle).1
            ++ (doSessionLoop outerFuel innerFuel (fun i => oe (i + 1))).1) := by
  refine ⟨?_, ?_, ?_, ?_, ?_, ?_, ?_, ?_, ?_⟩
  · cases hs : env.idleStartR <;> cases hw : env.wake <;>
      cases hc : env.closeR <;> cases ht : env.waitR <;>
      simp [doIdle, hs, hw, hc, ht]
  · intro hs hc
    cases hw : env.wake with
    | changed =>
      refine ⟨[Action.timerStart deadline, Action.timerStop], fun _ => rfl, ?_, ?_⟩
      · intro hcontra
        simp at hcontra
      · cases ht : env.waitR <;> simp [doIdle, hs, hw, hc, ht]
    | timedOut =>
      refine ⟨[Action.timerStart deadline], ?_, fun _ => rfl, ?_⟩
      · intro hcontra
        simp at hcontra
      · cases ht : env.waitR <;> simp [doIdle, hs, hw, hc, ht]
  · intro hs
    cases hw : env.wake <;> cases hc : env.closeR <;> cases ht : env.waitR <;>
      simp [doIdle, hs, hw, hc, ht]
  · intro hs hc
    cases hw : env.wake <;> cases ht : env.waitR <;>
      simp [doIdle, hs, hw, hc, ht]
  · cases hs : env.idleStartR <;> cases hw : env.wake <;>
      cases hc : env.closeR <;> cases ht : env.waitR <;>
      simp [doIdle, hs, hw, hc, ht]
  · intro e hs
    simp [doIdle, hs]
  · intro e hs hc
    cases hw : env.wake <;> simp [doIdle, hs, hw, hc]
  · intro e hs hc ht
    cases hw : env.wake <;> simp [doIdle, hs, hw, hc, ht]
  · intro outerFuel innerFuel oe hd hi
    rw [doSessionLoop_idle_ok outerFuel innerFuel oe hd hi]

/-- The delete sequence always issues the store for the given UID (even
when the store command then fails). -/
lemma deleteMessage_store_mem (uid : Nat) (sR eR : CmdResp) :
    storeFor uid ∈ (deleteMessage uid sR eR).1 := by
  cases sR with
  | err e => simp [deleteMessage]
  | ok =>
    cases eR with
    | err e => simp [deleteMessage]
    | ok => simp [deleteMessage]

/-- Claim C1: for the message fetched at drain iteration `k`, the Gmail
upload call is issued for its exact bytes, and the source-side delete (the
silent add-\Deleted store on its UID) is issued iff that import returned
success; on import failure the session returns an error, the iteration
issues no store and no expunge, and the drain loop stops at iteration `k`. -/
theorem C1_delete_iff_import_success
    (fuel k n : Nat) (env : Nat → DrainEnv) (fd : FetchData) (rest : List FetchData)
    (hk : k < fuel)
    (hcont : ∀ j, j < k → (drainStep (env j)).2 = StepRes.cont)
    (hsel : (env k).selectR = SelectResp.ok n) (hn : 0 < n)
    (hfetch : (env k).fetchR = FetchResp.ok (fd :: rest)) :
    (Action.gmailImport (importRequest ⟨fd.uid, fd.bodySection.flatten⟩)
        ∈ (drainStep (env k)).1)
    ∧ ((storeFor fd.uid ∈ (drainStep (env k)).1) ↔ importOk ((env k).importR) = true)
    ∧ (importOk ((env k).importR) = false →
        (∃ e, (drainLoop fuel env).2 = DrainRes.err e)
        ∧ storeFor fd.uid ∉ (drainStep (env k)).1
        ∧ Action.expunge ∉ (drainStep (env k)).1
        ∧ (drainLoop fuel env).1 =
            ((List.range k).map (fun j => (drainStep (env j)).1)).flatten
              ++ (drainStep (env k)).1
        ∧ (∀ (se : SessionEnv) (outerFuel : Nat),
            se.dialR = CmdResp.ok → se.loginR = CmdResp.ok →
            (se.outer 0).drain = env → 0 < outerFuel →
            ∃ e, (doSession outerFuel fuel se).2 = SessionRes.returned (some e))) := by
  have hmsg := drainStep_msg (env k) n fd rest hsel hn hfetch
  cases hio : importOk ((env k).importR) with
  | true =>
    have hok : (importToGmail ⟨fd.uid, fd.bodySection.flatten⟩ (env k).importR).2 =
        Except.ok () :=
      (importToGmail_ok_iff _ _).mpr hio
    have hmem : storeFor fd.uid ∈ (drainStep (env k)).1 := by
      rw [hmsg]
      cases hdel : (deleteMessage fd.uid (env k).storeR (env k).expungeR).2 with
      | error e2 =>
        simp only [hok, hdel]
        exact List.mem_append.mpr (Or.inr (deleteMessage_store_mem fd.uid _ _))
      | ok v =>
        simp only [hok, hdel]
        exact List.mem_append.mpr (Or.inr (deleteMessage_store_mem fd.uid _ _))
    refine ⟨?_, iff_of_true hmem rfl, by simp⟩
    rw [hmsg]
    cases hdel : (deleteMessage fd.uid (env k).storeR (env k).expungeR).2 with
    | error e => simp [hok, hdel]
    | ok v => simp [hok, hdel]
  | false =>
    obtain ⟨e, he⟩ := importToGmail_fail ⟨fd.uid, fd.bodySection.flatten⟩ ((env k).importR) hio
    have hstep1 : (drainStep (env k)).1 =
        [Action.select "INBOX", Action.fetch 1,
         Action.gmailImport (importRequest ⟨fd.uid, fd.bodySection.flatten⟩)] := by
      rw [hmsg]
      simp [he]
    have hstep2 : (drainStep (env k)).2 = StepRes.err e := by
      rw [hmsg]
      simp [he]
    have hsplit := drainLoop_split k fuel env (Nat.le_of_lt hk) hcont
    obtain ⟨m, hm⟩ : ∃ m, fuel - k = m + 1 := ⟨fuel - k - 1, by omega⟩
    have h0 : (fun i => env (i + k)) 0 = env k := by simp
    have hend := drainLoop_err_succ m (fun i => env (i + k)) e (by rw [h0]; exact hstep2)
    have hloop2 : (drainLoop fuel env).2 = DrainRes.err e := by
      rw [hsplit, hm, hend]
    have hloop1 : (drainLoop fuel env).1 =
        ((List.range k).map (fun j => (drainStep (env j)).1)).flatten
          ++ (drainStep (env k)).1 := by
      rw [hsplit, hm, hend]
      simp [h0]
    refine ⟨?_, ?_, ?_⟩
    · rw [hstep1]
      simp
    · rw [hstep1]
      simp [storeFor]
    · intro _
      refine ⟨⟨e, hloop2⟩, ?_, ?_, hloop1, ?_⟩
      · rw [hstep1]
        simp [storeFor]
      · rw [hstep1]
        simp
      · intro se outerFuel hdial hlogin houter hof
        obtain ⟨m2, rfl⟩ : ∃ m2, outerFuel = m2 + 1 := ⟨outerFuel - 1, by omega⟩
        have hd : (drainLoop fuel (se.outer 0).drain).2 = DrainRes.err e := by
          rw [houter]
          exact hloop2
        refine ⟨e, ?_⟩
        simp [doSession, hdial, hlogin, doSessionLoop_drain_err m2 fuel se.outer e hd]

lemma accountLoop_length (n : Nat) :
    ∀ results : Nat → Option String, (accountLoop results n).length = 2 * n := by
  induction n with
  | zero => intro results; simp [accountLoop]
  | succ m ih =>
    intro results
    simp [accountLoop, ih]
    omega

lemma accountLoop_get (n : Nat) :
    ∀ (results : Nat → Option String) (k : Nat), k < n →
    (accountLoop results n)[2 * k]? = some (SupEvent.runSession (results k))
    ∧ (accountLoop results n)[2 * k + 1]? = some (SupEvent.sleep maxPollTime) := by
  induction n with
  | zero => intro results k hk; omega
  | succ m ih =>
    intro results k hk
    cases k with
    | zero => simp [accountLoop]
    | succ k2 =>
      have h2 : 2 * (k2 + 1) = 2 * k2 + 1 + 1 := by ring
      have h3 : 2 * (k2 + 1) + 1 = 2 * k2 + 1 + 1 + 1 := by ring
      obtain ⟨ih1, ih2⟩ := ih (fun i => results (i + 1)) k2 (by omega)
      constructor
      · rw [h2]
        simpa [accountLoop] using ih1
      · rw [h3]
        simpa [accountLoop] using ih2

lemma accountLoop_sleep (n : Nat) :
    ∀ (results : Nat → Option String) (d : Nat),
    SupEvent.sleep d ∈ accountLoop results n → d = maxPollTime := by
  induction n with
  | zero => intro r d h; simp [accountLoop] at h
  | succ m ih =>
    intro r d h
    simp [accountLoop] at h
    rcases h with h | h
    · exact h
    · exact ih (fun i => r (i + 1)) d h

/-- Claim C6: the per-account supervisor loop is an unbounded alternation —
after every session run it unconditionally sleeps for the fixed constant
`maxPollTime` (5 minutes, the same constant used as the idle deadline) and
then starts a fresh session; every sleep has that same duration (no
backoff), and the number of restarts is unbounded (`n` runs for fuel `n`). -/
theorem C6_supervisor_fixed_cooldown (results : Nat → Option String) (n : Nat) :
    maxPollTime = 5 * timeMinute
    ∧ (accountLoop results n).length = 2 * n
    ∧ (∀ k, k < n →
        (accountLoop results n)[2 * k]? = some (SupEvent.runSession (results k))
        ∧ (accountLoop results n)[2 * k + 1]? = some (SupEvent.sleep maxPollTime))
    ∧ (∀ d, SupEvent.sleep d ∈ accountLoop results n → d = maxPollTime)
    ∧ (∀ (outerFuel innerFuel : Nat) (se : SessionEnv) (d : Nat),
        Action.timerStart d ∈ (doSession outerFuel innerFuel se).1 → d = maxPollTime) := by
  refine ⟨rfl, accountLoop_length n results, fun k hk => accountLoop_get n results k hk,
    fun d h => accountLoop_sleep n results d h, ?_⟩
  intro outerFuel innerFuel se d h
  cases hdial : se.dialR with
  | err e => simp [doSession, hdial] at h
  | ok =>
    cases hlogin : se.loginR with
    | err e => simp [doSession, hdial, hlogin] at h
    | ok =>
      simp only [doSession, hdial, hlogin] at h
      rcases List.mem_cons.mp h with h2 | h2
      · cases h2
      · rcases doSessionLoop_mem outerFuel innerFuel se.outer _ h2 with ⟨j, hj⟩ | ⟨j, hj⟩
        · obtain ⟨i, hi⟩ := drainLoop_act innerFuel ((se.outer j).drain) _ hj
          rcases drainStep_mem _ _ hi with h3 | h3 | ⟨mm, h3⟩ | ⟨u, h3⟩ | h3
          · cases h3
          · cases h3
          · cases h3
          · simp [storeFor] at h3
          · cases h3
        · rcases doIdle_mem maxPollTime ((se.outer j).idle) _ hj with
            h3 | h3 | h3 | h3 | h3
          · cases h3
          · exact (Action.timerStart.inj h3)
          · cases h3
          · cases h3
          · cases h3

/-- Claim C7: every Gmail import request a session ever issues delivers the
message as unread (label "UNREAD"), into the inbox (label "INBOX", the
default mapping for the drained INBOX mailbox), marked importable for
calendar, not marked deleted, never-mark-spam disabled, and dated from the
message's own date header rather than arrival time. -/
theorem C7_import_request_fields (outerFuel innerFuel : Nat) (se : SessionEnv)
    (req : ImportRequest)
    (h : Action.gmailImport req ∈ (doSession outerFuel innerFuel se).1) :
    "UNREAD" ∈ req.labelIds
    ∧ "INBOX" ∈ req.labelIds
    ∧ req.labelIds = ["INBOX", "UNREAD"]
    ∧ req.internalDateSource = "dateHeader"
    ∧ req.processForCalendar = true
    ∧ req.neverMarkSpam = false
    ∧ req.deleted = false
    ∧ req.userId = "me"
    ∧ req.contentType = "message/rfc822" := by
  have hshape : ∃ m, req = importRequest m := by
    cases hdial : se.dialR with
    | err e => simp [doSession, hdial] at h
    | ok =>
      cases hlogin : se.loginR with
      | err e =>
        simp [doSession, hdial, hlogin] at h
      | ok =>
        simp only [doSession, hdial, hlogin] at h
        rcases List.mem_cons.mp h with h2 | h2
        · cases h2
        · exact doSessionLoop_import_shape outerFuel innerFuel se.outer req h2
  obtain ⟨m, rfl⟩ := hshape
  refine ⟨?_, ?_, rfl, rfl, rfl, rfl, rfl, rfl, rfl⟩ <;> simp [importRequest]

/-- A concrete FETCH datum used in concrete evaluations: UID 7, two body
sections. -/
def wFd : FetchData := ⟨7, [[104], [105]]⟩

/-- The message `wFd` assembles to. -/
def wMsg : message := ⟨7, [104, 105]⟩

/-- A drain iteration whose transfer fully succeeds. -/
def wDrainOk : DrainEnv :=
  { selectR := SelectResp.ok 1, fetchR := FetchResp.ok [wFd],
    importR := ImportResp.resp 200, storeR := CmdResp.ok, expungeR := CmdResp.ok }

/-- A drain iteration that observes an empty mailbox. -/
def wDrainEmpty : DrainEnv :=
  { selectR := SelectResp.ok 0, fetchR := FetchResp.ok [],
    importR := ImportResp.resp 200, storeR := CmdResp.ok, expungeR := CmdResp.ok }

/-- A drain iteration whose Gmail import is rejected with status 404. -/
def wDrainFail : DrainEnv :=
  { selectR := SelectResp.ok 1, fetchR := FetchResp.ok [wFd],
    importR := ImportResp.resp 404, storeR := CmdResp.ok, expungeR := CmdResp.ok }

/-- A drain iteration racing an external change: positive count, empty
fetch. -/
def wDrainRace : DrainEnv :=
  { selectR := SelectResp.ok 1, fetchR := FetchResp.ok [],
    importR := ImportResp.resp 200, storeR := CmdResp.ok, expungeR := CmdResp.ok }

/-- An idle wait woken by a change notification, all commands succeeding. -/
def wIdleOk : IdleEnv :=
  { idleStartR := CmdResp.ok, wake := WakeCause.changed,
    closeR := CmdResp.ok, waitR := CmdResp.ok }

/-- One outer iteration: transfer one message, observe empty, idle. -/
def wOuterOk : OuterEnv :=
  { drain := fun i => if i = 0 then wDrainOk else wDrainEmpty, idle := wIdleOk }

/-- A whole-session environment with a successful first transfer. -/
def wSessionOk : SessionEnv :=
  { dialR := CmdResp.ok, loginR := CmdResp.ok, outer := fun _ => wOuterOk }

/-- Witness for C1 at a concrete failing import (status 404): the delete
store is issued iff the import succeeded. -/
theorem C1_witness :
    (storeFor wFd.uid ∈ (drainStep ((fun _ : Nat => wDrainFail) 0)).1) ↔
      importOk (((fun _ : Nat => wDrainFail) 0).importR) = true :=
  (C1_delete_iff_import_success 1 0 1 (fun _ => wDrainFail) wFd [] (by decide)
    (fun j hj => absurd hj (by omega)) rfl (by decide) rfl).2.1

/-- Witness for C2: a 404 response is an error. -/
theorem C2_witness :
    (importToGmail wMsg (ImportResp.resp 404)).2 =
      Except.error ("gmail returned status code: " ++ toString 404) :=
  (C2_import_failure_policy wMsg).2.1 404 (by decide)

/-- Witness for C3: a zero-count select drains immediately. -/
theorem C3_witness :
    drainLoop 1 (fun _ => wDrainEmpty) = ([Action.select "INBOX"], DrainRes.drained) :=
  C3_drain_iteration_shape.2.2.1 1 (fun _ => wDrainEmpty) (by decide) rfl

/-- Witness for C4: after a successful close, the idle wait issues
`idle.Wait`. -/
theorem C4_witness :
    Action.idleWait ∈ (doIdle maxPollTime wIdleOk).1 :=
  (C4_idle_cleanup maxPollTime wIdleOk).2.2.2.1 rfl rfl

/-- Witness for C5: the positive-count/empty-fetch race yields drained. -/
theorem C5_witness :
    (drainLoop 1 (fun _ => wDrainRace)).2 = DrainRes.drained :=
  (C5_empty_fetch_is_drained 1 0 1 (fun _ => wDrainRace) (by decide)
    (fun j hj => absurd hj (by omega)) rfl (by decide) rfl).2.1

/-- Witness for C6: the supervisor's second event is the cooldown sleep. -/
theorem C6_witness :
    (accountLoop (fun _ => some "boom") 3)[1]? = some (SupEvent.sleep maxPollTime) :=
  ((C6_supervisor_fixed_cooldown (fun _ => some "boom") 3).2.2.1 0 (by decide)).2

/-- Witness for C7 at a concrete session that imports one message. -/
theorem C7_witness :
    "UNREAD" ∈ (importRequest wMsg).labelIds :=
  (C7_import_request_fields 1 2 wSessionOk (importRequest wMsg) (by decide)).1

/-- Witness for C8's amended theorem: a delivered notification leaves the
receiver no longer waiting. -/
theorem C8_witness :
    (handlerSend { buffer := [], receiverWaiting := true }).1.receiverWaiting = false :=
  (C8_rendezvous_handoff { buffer := [], receiverWaiting := true }).2.2.2 (by decide)

/-- Witness for C9: a failing store yields its error with no expunge
issued. -/
theorem C9_witness :
    (deleteMessage 7 (CmdResp.err "store failed") CmdResp.ok).1 = [storeFor 7]
    ∧ (deleteMessage 7 (CmdResp.err "store failed") CmdResp.ok).2 =
        Except.error "store failed" :=
  (C9_store_precedes_expunge 7 (CmdResp.err "store failed") CmdResp.ok).2.1
    "store failed" rfl

end Turbogmailify
